import Mathlib

/-!
Shallow embedding of the Relax frontend
(`src/python/tvm/relax/frontend.py`): the `R2Transformer` lowering from the
synr AST to the Relax IR, and the `TVMDiagnosticContext` diagnostic sink.

Python dictionaries (`str_to_var`, `module`, the definition scope) are
modelled as association lists with the most recent insertion first;
`dictGet` returns the first match, which gives the last-writer-wins
semantics of dictionary assignment.  Failures that the Python code does not
route through the diagnostic sink (KeyError on a missing dictionary key,
AttributeError such as the `params.len()` call in the intrinsic arity
check, AssertionError from `assert`, IndexError from out-of-range list
subscripts, and the interactive `pdb.set_trace()` breakpoint in `to_type`)
are modelled as distinct error values, separate from `LowerErr.diag`, which
models `self._diagnostic_context.emit('error', msg, span)` immediately
followed by `self._diagnostic_context.render()` (which aborts the
compilation).  Fresh object identities (`Id(name)` allocations) are
modelled by a counter threaded through the lowering state.
-/

namespace Relax

/-- Source spans.  `R2Transformer.span_to_span` rebases a synr span onto the
compilation unit's registered source map (an external collaborator); no
claim inspects the content of a span, so spans are modelled as opaque
tokens and the rebase as the identity on the token. -/
abbrev Span := Nat

/-- `R2Transformer.span_to_span` (frontend.py lines 51-54). -/
def span_to_span (sp : Span) : Span := sp

/-- Callee of an IR `expr.Call`: either a registry operator
(`op.Op.get(name)`, trusted external lookup, no existence check) or a
`GlobalVar` carrying a freshly allocated `Id` (modelled by a counter). -/
inductive Callee where
  | opRef (name : String)
  | globalVar (uid : Nat) (name : String)

mutual
/-- IR types: `expr.Tensor(shape, dtype, span)`.  `dtype` is never set by
the frontend (always `None`), modelled as `Option Unit`. -/
inductive IRType where
  | Tensor (shape : Option IRExpr) (dtype : Option Unit) (span : Option Span)

/-- IR expressions produced by the frontend.  `var` is `expr.Var(Id(name),
ty, span)` with the fresh `Id` identity modelled as `uid`.  `tirExpr`
wraps `tir.IntImm("int32", value)`; the external `IntImm` constructor is
opaque, so the literal value is carried as given. -/
inductive IRExpr where
  | var (uid : Nat) (name : String) (ty : Option IRType) (span : Option Span)
  | tup (fields : List IRExpr) (span : Option Span)
  | tirExpr (value : Int) (span : Option Span)
  | broadcastShape (lhs rhs : IRExpr) (span : Option Span)
  | computeE (shape body : IRExpr) (span : Option Span)
  | callE (callee : Callee) (args : List IRExpr) (span : Option Span)
  | tensorSlice (tensor : IRExpr) (indices : List IRExpr) (span : Option Span)
  | addE (lhs rhs : IRExpr) (span : Option Span)
  | shapeOf (tensor : IRExpr) (span : Option Span)
  | letE (bindings : List Binding) (body : Option IRExpr) (span : Option Span)
  | funcE (name : String) (params : List IRExpr) (body : IRExpr)
      (ty : Option IRType) (span : Option Span)

/-- `expr.Binding(lhs, rhs)`; `lhs` is always a `var` node. -/
inductive Binding where
  | mk (lhs rhs : IRExpr)
end

/-- Errors that abort lowering.  `diag` models an `emit('error', ...)`
followed by `render()`; the others model uncaught Python exceptions and the
`pdb.set_trace()` breakpoint, none of which pass through the sink. -/
inductive LowerErr where
  | diag (message : String) (span : Span)
  | keyError (name : String)
  | attributeError (detail : String)
  | assertionError
  | indexError
  | breakpoint
deriving DecidableEq

/-- True exactly for an error that was emitted through the diagnostic
sink. -/
def LowerErr.isDiag : LowerErr → Bool
  | .diag _ _ => true
  | _ => false

/-- synr type parameters as inspected by `to_type`: the code only tests
`isinstance(param, ast.TypeConstant)`; any non-constant parameter (for
example a type variable) falls in the second constructor. -/
inductive TypeParam where
  | TypeConstant (value : Int)
  | TypeVarParam (name : String)

/-- synr type nodes as inspected by `to_type`: a bare name
(`ast.TypeVar`), an applied name (`ast.TypeApply`), or any other type
node shape. -/
inductive AstType where
  | TypeVar (name : String) (span : Span)
  | TypeApply (name : String) (params : List TypeParam) (span : Span)
  | OtherType (span : Span)

/-- Left-hand side of a synr assignment: `transform_stmt` asserts
`isinstance(stmt.lhs, ast.Var)`. -/
inductive AstLhs where
  | lhsVar (name : String)
  | lhsOther

/-- synr builtin operators as inspected by `transform_expr`. -/
inductive BuiltinOp where
  | Subscript
  | AddOp
  | OtherOp

/-- `exp.func_name` of a synr call: a plain name (`ast.Var`) or an
operator (`ast.Op`). -/
inductive AstFuncName where
  | fvar (name : String)
  | fop (op : BuiltinOp)

/-- A synr function parameter: name and optional type annotation node. -/
structure AstParam where
  name : String
  ty : Option AstType

mutual
/-- synr expressions as inspected by `transform_expr`: calls, attribute
access, nested function definitions, tuples, variable references, and any
other expression kind (for example constants), which takes the final
`else` branch. -/
inductive AstExpr where
  | call (func : AstFuncName) (params : List AstExpr) (span : Span)
  | attrE (object : AstExpr) (field : String) (span : Span)
  | functionE (fn : AstFunction) (span : Span)
  | tupleE (values : List AstExpr) (span : Span)
  | varE (name : String) (span : Span)
  | otherExpr (span : Span)

/-- synr statements as inspected by `transform_stmt`: assignment, return,
or anything else (which is diagnosed). -/
inductive AstStmt where
  | assign (lhs : AstLhs) (rhs : AstExpr) (span : Span)
  | ret (value : AstExpr) (span : Span)
  | otherStmt (span : Span)

/-- A synr function definition: name, parameters, and the statement list
of its body block (`ast.Block.stmts`). -/
inductive AstFunction where
  | mk (name : String) (params : List AstParam) (body : List AstStmt)
end

/-- First-match lookup in an association list; with most-recent-first
insertion this is Python dictionary lookup (last writer wins). -/
def dictGet {α : Type} : List (String × α) → String → Option α
  | [], _ => none
  | (k, v) :: rest, k' => if k = k' then some v else dictGet rest k'

/-- The mutable state of an `R2Transformer` (fields set in `__init__`),
plus the counter that models fresh `Id` allocation.  `definition_scope` is
the enclosing Python module: `getattr(self.definition_scope, name, None)`
is modelled as a dictionary lookup returning the sibling
`RelaxDecoratedFn`'s `module` dictionary. -/
structure LowerState where
  definition_scope : List (String × List (String × IRExpr))
  str_to_var : List (String × IRExpr)
  blocks : List (List Binding)
  module : List (String × IRExpr)
  counter : Nat

/-- `R2Transformer.decl_var` (lines 56-60): allocate a fresh `Id`, build a
`Var`, and bind it in `str_to_var`, overwriting any previous binding of
that name. -/
def decl_var (name : String) (ty : Option IRType) (span : Option Span)
    (s : LowerState) : IRExpr × LowerState :=
  let v := IRExpr.var s.counter name ty span
  (v, { s with str_to_var := (name, v) :: s.str_to_var, counter := s.counter + 1 })

/-- The dimension-collection loop of `to_type` (lines 73-78): walk the
type parameters in order, wrapping each `ast.TypeConstant` in a `TIRExpr`
dimension; any parameter that is not a `TypeConstant` fails the
`isinstance` test and is skipped with no effect. -/
def const_dims : List TypeParam → List IRExpr
  | [] => []
  | .TypeConstant v :: rest => IRExpr.tirExpr v none :: const_dims rest
  | .TypeVarParam _ :: rest => const_dims rest

/-- `R2Transformer.to_type` (lines 62-86).  A missing annotation is
`None`; `Tensor` as a bare name gives an unranked tensor; `Tensor[...]`
collects only the parameters that are `ast.TypeConstant` (any other
parameter is silently skipped by the `isinstance` filter) into `TIRExpr`
dimensions; every other shape reaches the `pdb.set_trace()` breakpoint at
line 82 before the dead `emit`/`render` pair. -/
def to_type : Option AstType → Except LowerErr (Option IRType)
  | none => .ok none
  | some (.TypeVar name sp) =>
      if name = "Tensor" then
        .ok (some (.Tensor none none (some (span_to_span sp))))
      else .error .breakpoint
  | some (.TypeApply name params _) =>
      if name = "Tensor" then
        .ok (some (.Tensor (some (.tup (const_dims params) none)) none none))
      else .error .breakpoint
  | some (.OtherType _) => .error .breakpoint

/-- `R2Transformer.enter_block` (lines 185-186): push an empty binding
sequence. -/
def enter_block (s : LowerState) : LowerState :=
  { s with blocks := [] :: s.blocks }

/-- `R2Transformer.exit_block` (lines 188-191): pop and return the top
binding sequence (`self.blocks[-1]`; popping an empty stack would be an
IndexError). -/
def exit_block (s : LowerState) : Except LowerErr (List Binding × LowerState) :=
  match s.blocks with
  | [] => .error .indexError
  | b :: rest => .ok (b, { s with blocks := rest })

/-- The parameter loop of `R2Transformer.transform_function` (lines
95-99): parse each declared type and declare the parameter variable, in
order. -/
def declare_params : List AstParam → LowerState →
    Except LowerErr (List IRExpr × LowerState)
  | [], s => .ok ([], s)
  | p :: rest, s =>
      match to_type p.ty with
      | .error e => .error e
      | .ok ty =>
          let (v, s1) := decl_var p.name ty none s
          match declare_params rest s1 with
          | .error e => .error e
          | .ok (vs, s2) => .ok (v :: vs, s2)

/-- The classification chain for a call whose callee is a plain name
(`transform_expr`, lines 123-146), applied after the arguments have been
lowered to `ps`.  The intrinsics `broadcast_shape` and `compute` are
checked first; their arity-error branch evaluates `params.len()` inside
the f-string of the diagnostic message, and Python lists have no `len`
attribute, so that branch raises AttributeError before any diagnostic is
emitted.  Then a name bound in `str_to_var` is returned as that variable
(the lowered arguments are dropped); then
`getattr(self.definition_scope, name, None)` decides between a
registry-operator call (no existence check) and importing the sibling
function's lowered form into `self.module` and calling it through a fresh
`GlobalVar`. -/
def call_named (name : String) (ps : List IRExpr) (s1 : LowerState) :
    Except LowerErr (IRExpr × LowerState) :=
  if name = "broadcast_shape" then
    match ps with
    | [a, b] => .ok (.broadcastShape a b none, s1)
    | _ => .error (.attributeError "list object has no attribute len")
  else if name = "compute" then
    match ps with
    | [a, b] => .ok (.computeE a b none, s1)
    | _ => .error (.attributeError "list object has no attribute len")
  else
    match dictGet s1.str_to_var name with
    | some v => .ok (v, s1)
    | none =>
        match dictGet s1.definition_scope name with
        | none => .ok (.callE (.opRef name) ps none, s1)
        | some siblingModule =>
            match dictGet siblingModule name with
            | none => .error (.keyError name)
            | some fn' =>
                .ok (.callE (.globalVar s1.counter name) ps none,
                     { s1 with
                         module := (name, fn') :: s1.module,
                         counter := s1.counter + 1 })

mutual

/-- `R2Transformer.transform_expr` (lines 116-183).  For a named call the
arguments are lowered first, then `call_named` classifies the callee.
Operator calls handle only `Subscript` (the second parameter must be a
tuple node, whose `values` field the code reads; a missing parameter is
an IndexError) and `Add` (which lowers all arguments and uses the first
two); attribute access handles only the field `shape`; a nested
`ast.Function` recurses into `transform_function` (after a `print`);
`ast.Tuple` hits `assert False`; a bare `ast.Var` is a plain dictionary
subscript on `str_to_var` (KeyError when unbound); anything else is
diagnosed and aborted. -/
def transform_expr (e : AstExpr) (s : LowerState) :
    Except LowerErr (IRExpr × LowerState) :=
  match e with
  | .call (.fvar name) params _ =>
      (transform_expr_list params s).bind fun r => call_named name r.1 r.2
  | .call (.fop .Subscript) params _ =>
      match params with
      | [] => .error .indexError
      | p0 :: rest =>
          (transform_expr p0 s).bind fun r =>
            match rest with
            | [] => .error .indexError
            | .tupleE vals _ :: _ =>
                (transform_expr_list vals r.2).bind fun r2 =>
                  .ok (.tensorSlice r.1 r2.1 none, r2.2)
            | _ :: _ => .error (.attributeError "object has no attribute values")
  | .call (.fop .AddOp) params _ =>
      (transform_expr_list params s).bind fun r =>
        match r.1 with
        | a :: b :: _ => .ok (.addE a b none, r.2)
        | _ => .error .indexError
  | .call (.fop .OtherOp) _ sp => .error (.diag "unsupported function" sp)
  | .attrE obj field sp =>
      (transform_expr obj s).bind fun r =>
        if field = "shape" then .ok (.shapeOf r.1 none, r.2)
        else .error (.diag "unsupported function" sp)
  | .functionE fn _ => transform_function fn s
  | .tupleE _ _ => .error .assertionError
  | .varE name _ =>
      match dictGet s.str_to_var name with
      | some v => .ok (v, s)
      | none => .error (.keyError name)
  | .otherExpr sp => .error (.diag "don't support this construct" sp)
termination_by (sizeOf e, 0)

/-- The argument loops of `transform_expr`
(`for arg in exp.params: params.append(self.transform_expr(arg))`). -/
def transform_expr_list (l : List AstExpr) (s : LowerState) :
    Except LowerErr (List IRExpr × LowerState) :=
  match l with
  | [] => .ok ([], s)
  | a :: rest =>
      (transform_expr a s).bind fun r =>
        (transform_expr_list rest r.2).bind fun r2 =>
          .ok (r.1 :: r2.1, r2.2)
termination_by (sizeOf l, 0)

/-- `R2Transformer.transform_stmt` (lines 103-114).  An assignment asserts
a variable left-hand side, declares it (before lowering the right-hand
side), lowers the right-hand side, appends the binding to
`self.blocks[-1]` (IndexError when the block stack is empty), and yields
`None`; a return yields the lowered value; anything else is diagnosed. -/
def transform_stmt (st : AstStmt) (s : LowerState) :
    Except LowerErr (Option IRExpr × LowerState) :=
  match st with
  | .assign (.lhsVar name) rhs _ =>
      let p := decl_var name none none s
      (transform_expr rhs p.2).bind fun r =>
        match r.2.blocks with
        | [] => .error .indexError
        | top :: restBlocks =>
            .ok (none, { r.2 with blocks := (top ++ [⟨p.1, r.1⟩]) :: restBlocks })
  | .assign .lhsOther _ _ => .error .assertionError
  | .ret v _ =>
      (transform_expr v s).bind fun r => .ok (some r.1, r.2)
  | .otherStmt sp =>
      .error (.diag "only variable left-hand sides are supported in Relay" sp)
termination_by (sizeOf st, 0)

/-- The statement walk of `R2Transformer.transform_block` (lines
196-199): every statement of `block.stmts[:-1]` must yield `None`
(`assert self.transform_stmt(stmt) is None`); the last statement's result
is returned (`block.stmts[-1]` on an empty list is an IndexError).  The
commented-out `assert ret_expr is not None` in the source leaves a `None`
result from a trailing assignment unchecked. -/
def transform_block_stmts (stmts : List AstStmt) (s : LowerState) :
    Except LowerErr (Option IRExpr × LowerState) :=
  match stmts with
  | [] => .error .indexError
  | [last] => transform_stmt last s
  | st :: st2 :: rest2 =>
      (transform_stmt st s).bind fun r =>
        match r.1 with
        | none => transform_block_stmts (st2 :: rest2) r.2
        | some _ => .error .assertionError
termination_by (sizeOf stmts, 0)

/-- `R2Transformer.transform_block` (lines 193-203): enter a binding
scope, walk the statements, pop the accumulated bindings and wrap them
with the result in a `Let`. -/
def transform_block (stmts : List AstStmt) (s : LowerState) :
    Except LowerErr (IRExpr × LowerState) :=
  (transform_block_stmts stmts (enter_block s)).bind fun r =>
    (exit_block r.2).bind fun r2 =>
      .ok (.letE r2.1 r.1 none, r2.2)
termination_by (sizeOf stmts, 1)

/-- `R2Transformer.transform_function` (lines 94-101): declare the
parameters, lower the body block, assemble the IR function. -/
def transform_function (fn : AstFunction) (s : LowerState) :
    Except LowerErr (IRExpr × LowerState) :=
  match fn with
  | .mk name params body =>
      (declare_params params s).bind fun r =>
        (transform_block body r.2).bind fun r2 =>
          .ok (.funcE name r.1 r2.1 none none, r2.2)
termination_by (sizeOf fn, 0)

end

/-- `R2Transformer.transform_module` (lines 88-92): lower every function
of the parsed module in order, inserting each into `self.module` under its
name, and return the module dictionary. -/
def transform_module (funcs : List (String × AstFunction)) (s : LowerState) :
    Except LowerErr (List (String × IRExpr) × LowerState) :=
  match funcs with
  | [] => .ok (s.module, s)
  | (name, fn) :: rest =>
      match transform_function fn s with
      | .error err => .error err
      | .ok (fnE, s1) =>
          transform_module rest { s1 with module := (name, fnE) :: s1.module }

/-- `diagnostics.DiagnosticLevel` enum values used by
`TVMDiagnosticContext.emit`. -/
inductive DiagnosticLevel where
  | ERROR
  | BUG
  | WARNING
deriving DecidableEq

/-- A `diagnostics.Diagnostic(level, span, message)` as constructed by
`TVMDiagnosticContext.emit`.  The level slot holds whatever the Python
variable `level` holds at construction time: either a `DiagnosticLevel`
enum value, or — in the fallback branch — the plain string "error". -/
structure Diagnostic where
  level : Sum DiagnosticLevel String
  span : Span
  message : String
deriving DecidableEq

/-- `TVMDiagnosticContext.emit` (lines 224-240): translate the level
string to the enum (the fallback branch assigns the plain string "error",
not the enum), assert the span is present, construct the diagnostic and
forward it to the wrapped TVM context (modelled as appending to the list
of emitted diagnostics). -/
def TVMDiagnosticContext.emit (emitted : List Diagnostic)
    (level message : String) (span : Option Span) :
    Except LowerErr (List Diagnostic) :=
  let lv : Sum DiagnosticLevel String :=
    if level = "error" then .inl .ERROR
    else if level = "bug" then .inl .BUG
    else if level = "warning" then .inl .WARNING
    else .inr "error"
  match span with
  | none => .error .assertionError
  | some sp => .ok (emitted ++ [⟨lv, sp, message⟩])

/-- Appending bindings to the top entry of a block stack (the effect of
`self.blocks[-1].append(...)` across a statement walk). -/
def extendTop (bl : List (List Binding)) (ex : List Binding) :
    List (List Binding) :=
  match bl with
  | [] => []
  | t :: rest => (t ++ ex) :: rest

/-- A lowered sibling function used by the concrete test states. -/
def siblingFn : IRExpr := .funcE "f" [] (.letE [] none none) none none

/-- Concrete state: only "y" bound, empty block stack. -/
def stY : LowerState := ⟨[], [("y", IRExpr.var 0 "y" none none)], [], [], 1⟩

/-- Concrete state: nothing bound. -/
def stEmpty : LowerState := ⟨[], [], [], [], 0⟩

/-- Concrete state: "f" bound as a local variable and also present as a
sibling-scope function in the definition scope. -/
def stF : LowerState :=
  ⟨[("f", [("f", siblingFn)])], [("f", IRExpr.var 0 "f" none none)], [], [], 1⟩

/-- Concrete state: the intrinsic name "compute" bound as a local
variable. -/
def stComputeBound : LowerState :=
  ⟨[], [("compute", IRExpr.var 0 "compute" none none)], [], [], 1⟩

theorem extendTop_nil (bl : List (List Binding)) : extendTop bl [] = bl := by
  cases bl <;> simp [extendTop]

theorem extendTop_extendTop (bl : List (List Binding)) (a b : List Binding) :
    extendTop (extendTop bl a) b = extendTop bl (a ++ b) := by
  cases bl <;> simp [extendTop]

theorem declare_params_blocks (ps : List AstParam) (s : LowerState)
    (r : List IRExpr) (s' : LowerState)
    (h : declare_params ps s = .ok (r, s')) : s'.blocks = s.blocks := by
  induction ps generalizing s r s' with
  | nil =>
      simp only [declare_params] at h
      cases h; rfl
  | cons p rest ih =>
      simp only [declare_params, decl_var] at h
      split at h
      · exact Except.noConfusion h
      · split at h
        · exact Except.noConfusion h
        · rename_i ty hty pr vs s2 hrest
          cases h
          have h2 := ih _ _ _ hrest
          simpa using h2

theorem call_named_blocks (name : String) (ps : List IRExpr)
    (s1 : LowerState) (r : IRExpr) (s' : LowerState)
    (h : call_named name ps s1 = .ok (r, s')) : s'.blocks = s1.blocks := by
  unfold call_named at h
  repeat' split at h
  all_goals first
    | exact Except.noConfusion h
    | (cases h; rfl)

mutual

/-- Block-stack invariant: a successful `transform_expr` leaves
`self.blocks` unchanged (nested blocks are entered and exited in a
balanced way). -/
theorem transform_expr_blocks (e : AstExpr) (s : LowerState) (r : IRExpr)
    (s' : LowerState) (h : transform_expr e s = .ok (r, s')) :
    s'.blocks = s.blocks := by
  cases e with
  | call fn params sp =>
      cases fn with
      | fvar name =>
          simp only [transform_expr] at h
          cases heq : transform_expr_list params s with
          | error err => rw [heq] at h; exact Except.noConfusion h
          | ok pr =>
              rw [heq] at h
              simp only [Except.bind] at h
              have hb1 : pr.2.blocks = s.blocks :=
                transform_expr_list_blocks params s pr.1 pr.2
                  (by rw [heq])
              exact (call_named_blocks name pr.1 pr.2 r s' h).trans hb1
      | fop op =>
          cases op with
          | Subscript =>
              cases params with
              | nil =>
                  simp only [transform_expr] at h
                  exact Except.noConfusion h
              | cons p0 rest =>
                  simp only [transform_expr] at h
                  cases heq0 : transform_expr p0 s with
                  | error err => rw [heq0] at h; exact Except.noConfusion h
                  | ok pr0 =>
                      rw [heq0] at h
                      simp only [Except.bind] at h
                      have hb1 : pr0.2.blocks = s.blocks :=
                        transform_expr_blocks p0 s pr0.1 pr0.2 (by rw [heq0])
                      cases rest with
                      | nil => exact Except.noConfusion h
                      | cons p1 rest2 =>
                          cases p1 with
                          | tupleE vals vsp =>
                              simp only [] at h
                              cases heq1 : transform_expr_list vals pr0.2 with
                              | error err =>
                                  rw [heq1] at h
                                  exact Except.noConfusion h
                              | ok pr1 =>
                                  rw [heq1] at h
                                  simp only [Except.bind] at h
                                  have hb2 : pr1.2.blocks = pr0.2.blocks :=
                                    transform_expr_list_blocks vals pr0.2 pr1.1 pr1.2
                                      (by rw [heq1])
                                  cases h
                                  exact hb2.trans hb1
                          | call f2 p2 sp2 => exact Except.noConfusion h
                          | attrE o2 f2 sp2 => exact Except.noConfusion h
                          | functionE fn2 sp2 => exact Except.noConfusion h
                          | varE n2 sp2 => exact Except.noConfusion h
                          | otherExpr sp2 => exact Except.noConfusion h
          | AddOp =>
              simp only [transform_expr] at h
              cases heq : transform_expr_list params s with
              | error err => rw [heq] at h; exact Except.noConfusion h
              | ok pr =>
                  rw [heq] at h
                  simp only [Except.bind] at h
                  have hb1 : pr.2.blocks = s.blocks :=
                    transform_expr_list_blocks params s pr.1 pr.2 (by rw [heq])
                  repeat' split at h
                  all_goals first
                    | exact Except.noConfusion h
                    | (cases h; exact hb1)
          | OtherOp =>
              simp only [transform_expr] at h
              exact Except.noConfusion h
  | attrE obj field sp =>
      simp only [transform_expr] at h
      cases heq : transform_expr obj s with
      | error err => rw [heq] at h; exact Except.noConfusion h
      | ok pr =>
          rw [heq] at h
          simp only [Except.bind] at h
          have hb1 : pr.2.blocks = s.blocks :=
            transform_expr_blocks obj s pr.1 pr.2 (by rw [heq])
          split at h
          · cases h; exact hb1
          · exact Except.noConfusion h
  | functionE fn sp =>
      simp only [transform_expr] at h
      exact transform_function_blocks fn s r s' h
  | tupleE vals sp =>
      simp only [transform_expr] at h
      exact Except.noConfusion h
  | varE name sp =>
      simp only [transform_expr] at h
      split at h
      · cases h; rfl
      · exact Except.noConfusion h
  | otherExpr sp =>
      simp only [transform_expr] at h
      exact Except.noConfusion h
termination_by (sizeOf e, 1)

/-- Block-stack invariant for the argument loops. -/
theorem transform_expr_list_blocks (l : List AstExpr) (s : LowerState)
    (r : List IRExpr) (s' : LowerState)
    (h : transform_expr_list l s = .ok (r, s')) : s'.blocks = s.blocks := by
  cases l with
  | nil =>
      simp only [transform_expr_list] at h
      cases h; rfl
  | cons a rest =>
      simp only [transform_expr_list] at h
      cases heq : transform_expr a s with
      | error err => rw [heq] at h; exact Except.noConfusion h
      | ok pr =>
          rw [heq] at h
          simp only [Except.bind] at h
          have hb1 : pr.2.blocks = s.blocks :=
            transform_expr_blocks a s pr.1 pr.2 (by rw [heq])
          cases heq2 : transform_expr_list rest pr.2 with
          | error err => rw [heq2] at h; exact Except.noConfusion h
          | ok pr2 =>
              rw [heq2] at h
              simp only [Except.bind] at h
              have hb2 : pr2.2.blocks = pr.2.blocks :=
                transform_expr_list_blocks rest pr.2 pr2.1 pr2.2 (by rw [heq2])
              cases h
              exact hb2.trans hb1
termination_by (sizeOf l, 1)

/-- Block-stack invariant for one statement: a successful `transform_stmt`
only appends bindings to the top entry of the stack. -/
theorem transform_stmt_blocks (st : AstStmt) (s : LowerState)
    (r : Option IRExpr) (s' : LowerState)
    (h : transform_stmt st s = .ok (r, s')) :
    ∃ ex, s'.blocks = extendTop s.blocks ex := by
  cases st with
  | assign lhs rhs sp =>
      cases lhs with
      | lhsVar name =>
          simp only [transform_stmt] at h
          cases heq : transform_expr rhs (decl_var name none none s).2 with
          | error err => rw [heq] at h; exact Except.noConfusion h
          | ok pr =>
              rw [heq] at h
              simp only [Except.bind] at h
              have hb1 : pr.2.blocks = s.blocks :=
                transform_expr_blocks rhs (decl_var name none none s).2 pr.1 pr.2
                  (by rw [heq])
              cases hbl : pr.2.blocks with
              | nil => rw [hbl] at h; exact Except.noConfusion h
              | cons top restBlocks =>
                  rw [hbl] at h
                  cases h
                  refine ⟨[⟨(decl_var name none none s).1, pr.1⟩], ?_⟩
                  rw [← hb1, hbl]
                  rfl
      | lhsOther =>
          simp only [transform_stmt] at h
          exact Except.noConfusion h
  | ret v sp =>
      simp only [transform_stmt] at h
      cases heq : transform_expr v s with
      | error err => rw [heq] at h; exact Except.noConfusion h
      | ok pr =>
          rw [heq] at h
          simp only [Except.bind] at h
          cases h
          exact ⟨[], by
            rw [extendTop_nil]
            exact transform_expr_blocks v s pr.1 pr.2 (by rw [heq])⟩
  | otherStmt sp =>
      simp only [transform_stmt] at h
      exact Except.noConfusion h
termination_by (sizeOf st, 1)

/-- Block-stack invariant for the statement walk of a block. -/
theorem transform_block_stmts_blocks (stmts : List AstStmt) (s : LowerState)
    (r : Option IRExpr) (s' : LowerState)
    (h : transform_block_stmts stmts s = .ok (r, s')) :
    ∃ ex, s'.blocks = extendTop s.blocks ex := by
  cases stmts with
  | nil =>
      simp only [transform_block_stmts] at h
      exact Except.noConfusion h
  | cons st rest =>
      cases rest with
      | nil =>
          simp only [transform_block_stmts] at h
          exact transform_stmt_blocks st s r s' h
      | cons st2 rest2 =>
          simp only [transform_block_stmts] at h
          cases heq : transform_stmt st s with
          | error err => rw [heq] at h; exact Except.noConfusion h
          | ok pr =>
              rw [heq] at h
              simp only [Except.bind] at h
              obtain ⟨opt, s1⟩ := pr
              cases opt with
              | some x => exact Except.noConfusion h
              | none =>
                  obtain ⟨ex1, he1⟩ := transform_stmt_blocks st s none s1 heq
                  obtain ⟨ex2, he2⟩ :=
                    transform_block_stmts_blocks (st2 :: rest2) s1 r s' h
                  exact ⟨ex1 ++ ex2, by rw [he2, he1, extendTop_extendTop]⟩
termination_by (sizeOf stmts, 1)

/-- Block-stack invariant: a successful `transform_block` restores the
stack it was given (its own entry is pushed and popped). -/
theorem transform_block_blocks (stmts : List AstStmt) (s : LowerState)
    (r : IRExpr) (s' : LowerState)
    (h : transform_block stmts s = .ok (r, s')) : s'.blocks = s.blocks := by
  simp only [transform_block] at h
  cases heq : transform_block_stmts stmts (enter_block s) with
  | error err => rw [heq] at h; exact Except.noConfusion h
  | ok pr =>
      rw [heq] at h
      simp only [Except.bind] at h
      obtain ⟨retE, s1⟩ := pr
      obtain ⟨ex, he⟩ :=
        transform_block_stmts_blocks stmts (enter_block s) retE s1 heq
      have he2 : s1.blocks = ex :: s.blocks := by
        rw [he]; rfl
      simp only [exit_block, he2, Except.bind] at h
      cases h
      rfl
termination_by (sizeOf stmts, 2)

/-- Block-stack invariant: a successful `transform_function` restores the
stack it was given. -/
theorem transform_function_blocks (fn : AstFunction) (s : LowerState)
    (r : IRExpr) (s' : LowerState)
    (h : transform_function fn s = .ok (r, s')) : s'.blocks = s.blocks := by
  cases fn with
  | mk name params body =>
      simp only [transform_function] at h
      cases heq : declare_params params s with
      | error err => rw [heq] at h; exact Except.noConfusion h
      | ok pr =>
          rw [heq] at h
          simp only [Except.bind] at h
          have hb1 : pr.2.blocks = s.blocks :=
            declare_params_blocks params s pr.1 pr.2 (by rw [heq])
          cases heq2 : transform_block body pr.2 with
          | error err => rw [heq2] at h; exact Except.noConfusion h
          | ok pr2 =>
              rw [heq2] at h
              simp only [Except.bind] at h
              have hb2 : pr2.2.blocks = pr.2.blocks :=
                transform_block_blocks body pr.2 pr2.1 pr2.2 (by rw [heq2])
              cases h
              exact hb2.trans hb1
termination_by (sizeOf fn, 1)

end

/-- C1: for every call expression whose callee is a plain name that is
not an intrinsic, if the name is bound in the local symbol table and is
also resolvable as a sibling-scope function, classification resolves to
the local variable: the local-variable branch is taken before the
sibling-function and operator-registry branches. -/
theorem call_local_variable_wins_over_sibling
    (name : String) (args : List AstExpr) (sp : Span) (s s1 : LowerState)
    (ps : List IRExpr) (v : IRExpr)
    (siblingModule : List (String × IRExpr))
    (hb : name ≠ "broadcast_shape") (hc : name ≠ "compute")
    (hargs : transform_expr_list args s = .ok (ps, s1))
    (hlocal : dictGet s1.str_to_var name = some v)
    (hsibling : dictGet s1.definition_scope name = some siblingModule) :
    transform_expr (.call (.fvar name) args sp) s = .ok (v, s1) := by
  simp [transform_expr, hargs, Except.bind, call_named, hb, hc, hlocal]

theorem call_local_variable_wins_over_sibling_witness :
    transform_expr (.call (.fvar "f") [] 0) stF =
      .ok (IRExpr.var 0 "f" none none, stF) :=
  call_local_variable_wins_over_sibling "f" [] 0 stF stF []
    (IRExpr.var 0 "f" none none) [("f", siblingFn)]
    (by decide) (by decide)
    (by simp [transform_expr_list])
    (by simp [stF, dictGet])
    (by simp [stF, dictGet])

/-- C2 counterexample: a block whose last statement is an assignment does
NOT fail; it lowers without any diagnostic to a let-expression holding
the binding, with an absent result (`ret_expr` is `None` and the guarding
assert is commented out in the source). -/
theorem block_trailing_assign_counterexample :
    transform_block [.assign (.lhsVar "x") (.varE "y" 0) 0] stY =
      .ok (.letE [⟨IRExpr.var 1 "x" none none, IRExpr.var 0 "y" none none⟩]
            none none,
           ⟨[], [("x", IRExpr.var 1 "x" none none),
                 ("y", IRExpr.var 0 "y" none none)], [], [], 2⟩) := by
  simp [transform_block, transform_block_stmts, transform_stmt, transform_expr,
        enter_block, exit_block, decl_var, dictGet, stY, Except.bind]

/-- C2 (amended): a block whose last statement is an assignment (to a
variable, with a right-hand side that lowers) produces, without any
diagnostic, a let-expression containing that binding and an absent
result; only a last statement that is neither an assignment nor a return
is diagnosed with the unsupported-construct error and aborts
lowering. -/
theorem block_trailing_assign_amended :
    (∀ (s : LowerState) (name : String) (rhs : AstExpr) (sp : Span)
        (rhsE : IRExpr) (s2 : LowerState),
       transform_expr rhs (decl_var name none none (enter_block s)).2 =
           .ok (rhsE, s2) →
       transform_block [.assign (.lhsVar name) rhs sp] s =
         .ok (.letE [⟨(decl_var name none none (enter_block s)).1, rhsE⟩]
               none none,
              { s2 with blocks := s.blocks })) ∧
    (∀ (s : LowerState) (sp : Span),
       transform_block [.otherStmt sp] s =
         .error (.diag "only variable left-hand sides are supported in Relay" sp)) := by
  constructor
  · intro s name rhs sp rhsE s2 h
    have hbl : s2.blocks = [] :: s.blocks := by
      rw [transform_expr_blocks rhs (decl_var name none none (enter_block s)).2
            rhsE s2 h]
      rfl
    simp [transform_block, transform_block_stmts, transform_stmt, h,
          Except.bind, hbl, exit_block]
  · intro s sp
    simp [transform_block, transform_block_stmts, transform_stmt, Except.bind]

theorem block_trailing_assign_amended_witness :
    transform_block [.assign (.lhsVar "u") (.varE "y" 3) 4] stY =
      .ok (.letE [⟨(decl_var "u" none none (enter_block stY)).1,
                   IRExpr.var 0 "y" none none⟩] none none,
           { (decl_var "u" none none (enter_block stY)).2 with
               blocks := stY.blocks }) :=
  block_trailing_assign_amended.1 stY "u" (.varE "y" 3) 4
    (IRExpr.var 0 "y" none none)
    (decl_var "u" none none (enter_block stY)).2
    (by simp [transform_expr, decl_var, enter_block, dictGet, stY])

/-- C3: at the failing input — an intrinsic call with an argument count
other than 2 — the wrong-argument-count branch raises AttributeError
while formatting the diagnostic message (`params.len()` on a Python
list), so lowering fails with an uncaught exception and no diagnostic is
emitted; with exactly 2 arguments each intrinsic lowers to its
fixed-arity IR node over the two lowered arguments. -/
theorem intrinsic_arity_crash :
    transform_expr (.call (.fvar "broadcast_shape") [.varE "y" 0] 1) stY =
      .error (.attributeError "list object has no attribute len") ∧
    transform_expr (.call (.fvar "compute") [.varE "y" 0] 1) stY =
      .error (.attributeError "list object has no attribute len") ∧
    transform_expr (.call (.fvar "broadcast_shape")
        [.varE "y" 0, .varE "y" 1] 2) stY =
      .ok (.broadcastShape (IRExpr.var 0 "y" none none)
            (IRExpr.var 0 "y" none none) none, stY) ∧
    transform_expr (.call (.fvar "compute")
        [.varE "y" 0, .varE "y" 1] 2) stY =
      .ok (.computeE (IRExpr.var 0 "y" none none)
            (IRExpr.var 0 "y" none none) none, stY) ∧
    (LowerErr.attributeError "list object has no attribute len").isDiag
      = false := by
  refine ⟨?_, ?_, ?_, ?_, rfl⟩ <;>
    simp [transform_expr, transform_expr_list, call_named, dictGet, stY,
          Except.bind]

/-- C4: the bare named type Tensor always parses to an unranked tensor
type; the applied type Tensor whose parameters are all integer literals
parses to a tensor type whose shape is exactly that ordered list of
dimension expressions, for any number of parameters; an absent
annotation parses to no type. -/
theorem tensor_type_parsing (ks : List Int) (sp sp2 : Span) :
    to_type none = .ok none ∧
    to_type (some (.TypeVar "Tensor" sp)) =
      .ok (some (.Tensor none none (some (span_to_span sp)))) ∧
    to_type (some (.TypeApply "Tensor" (ks.map TypeParam.TypeConstant) sp2)) =
      .ok (some (.Tensor
            (some (.tup (ks.map fun k => IRExpr.tirExpr k none) none))
            none none)) := by
  refine ⟨rfl, rfl, ?_⟩
  have hdims : ∀ (l : List Int),
      const_dims (l.map TypeParam.TypeConstant) =
        l.map fun k => IRExpr.tirExpr k none := by
    intro l
    induction l with
    | nil => rfl
    | cons k rest ih => simp [const_dims, ih]
  simp [to_type, hdims]

/-- C5: at the failing input — an applied Tensor type containing a
parameter that is not an integer literal — `to_type` silently skips the
parameter and returns a tensor type built from the remaining constants,
instead of emitting a diagnostic and aborting. -/
theorem tensor_type_nonconst_param_skipped :
    to_type (some (.TypeApply "Tensor"
        [.TypeVarParam "N", .TypeConstant 2] 0)) =
      .ok (some (.Tensor (some (.tup [.tirExpr 2 none] none)) none none)) :=
  rfl

/-- C6 counterexample: an unbound bare variable reference fails with a
KeyError from the plain dictionary subscript on the symbol table, which
is not a diagnostic surfaced through the sink. -/
theorem unbound_reference_keyerror_counterexample :
    transform_expr (.varE "z" 0) stEmpty = .error (.keyError "z") ∧
    (LowerErr.keyError "z").isDiag = false := by
  constructor
  · simp [transform_expr, stEmpty, dictGet]
  · rfl

/-- C6 (amended): an unbound bare variable reference fails hard with a
KeyError from the symbol-table subscript — an uncaught exception, not a
diagnostic through the sink — and lookup of a declared name returns the
most recently declared Variable for that name. -/
theorem variable_lookup_behavior
    (s : LowerState) (name : String) (sp : Span) (v : IRExpr)
    (ty1 ty2 : Option IRType) (osp1 osp2 : Option Span) :
    (dictGet s.str_to_var name = none →
      transform_expr (.varE name sp) s = .error (.keyError name)) ∧
    (dictGet s.str_to_var name = some v →
      transform_expr (.varE name sp) s = .ok (v, s)) ∧
    dictGet ((decl_var name ty2 osp2
        (decl_var name ty1 osp1 s).2).2).str_to_var name =
      some ((decl_var name ty2 osp2 (decl_var name ty1 osp1 s).2).1) := by
  refine ⟨fun h => ?_, fun h => ?_, ?_⟩
  · simp [transform_expr, h]
  · simp [transform_expr, h]
  · simp [decl_var, dictGet]

theorem variable_lookup_behavior_witness :
    transform_expr (.varE "z" 0) stEmpty = .error (.keyError "z") ∧
    dictGet ((decl_var "z" none none
        (decl_var "z" none none stEmpty).2).2).str_to_var "z" =
      some ((decl_var "z" none none (decl_var "z" none none stEmpty).2).1) :=
  ⟨(variable_lookup_behavior stEmpty "z" 0 (IRExpr.var 0 "z" none none)
      none none none none).1 rfl,
   (variable_lookup_behavior stEmpty "z" 0 (IRExpr.var 0 "z" none none)
      none none none none).2.2⟩

/-- C7: when a block assigns the same name twice, both bindings appear,
in statement order, in the let-expression, bound to distinct fresh
variables, while every subsequent lookup of that name (here the block's
final return of the name) resolves to the later variable. -/
theorem shadowing_keeps_both_bindings
    (s : LowerState) (n q1 q2 : String) (w1 w2 : IRExpr)
    (sp1 sp2 sp3 sp4 sp5 sp6 : Span)
    (hq1n : q1 ≠ n) (hq2n : q2 ≠ n)
    (hq1 : dictGet s.str_to_var q1 = some w1)
    (hq2 : dictGet s.str_to_var q2 = some w2) :
    transform_block
        [.assign (.lhsVar n) (.varE q1 sp1) sp2,
         .assign (.lhsVar n) (.varE q2 sp3) sp4,
         .ret (.varE n sp5) sp6] s =
      .ok (.letE
            [⟨IRExpr.var s.counter n none none, w1⟩,
             ⟨IRExpr.var (s.counter + 1) n none none, w2⟩]
            (some (IRExpr.var (s.counter + 1) n none none)) none,
           { s with
               str_to_var :=
                 (n, IRExpr.var (s.counter + 1) n none none) ::
                   (n, IRExpr.var s.counter n none none) :: s.str_to_var,
               counter := s.counter + 2 }) ∧
    IRExpr.var s.counter n none none ≠
      IRExpr.var (s.counter + 1) n none none := by
  constructor
  · simp [transform_block, transform_block_stmts, transform_stmt,
          transform_expr, enter_block, exit_block, decl_var, Except.bind,
          dictGet, Ne.symm hq1n, Ne.symm hq2n, hq1, hq2]
  · simp [IRExpr.var.injEq]

theorem shadowing_keeps_both_bindings_witness :
    transform_block
        [.assign (.lhsVar "n") (.varE "y" 0) 0,
         .assign (.lhsVar "n") (.varE "y" 1) 1,
         .ret (.varE "n" 2) 2] stY =
      .ok (.letE
            [⟨IRExpr.var 1 "n" none none, IRExpr.var 0 "y" none none⟩,
             ⟨IRExpr.var 2 "n" none none, IRExpr.var 0 "y" none none⟩]
            (some (IRExpr.var 2 "n" none none)) none,
           { stY with
               str_to_var :=
                 ("n", IRExpr.var 2 "n" none none) ::
                   ("n", IRExpr.var 1 "n" none none) :: stY.str_to_var,
               counter := 3 }) ∧
    IRExpr.var 1 "n" none none ≠ IRExpr.var 2 "n" none none :=
  shadowing_keeps_both_bindings stY "n" "y" "y"
    (IRExpr.var 0 "y" none none) (IRExpr.var 0 "y" none none)
    0 0 1 1 2 2 (by decide) (by decide)
    (by simp [stY, dictGet]) (by simp [stY, dictGet])

/-- C8: a single-statement block consisting only of a return lowers to a
let-expression whose binding sequence is empty and whose result is the
lowered return-value expression. -/
theorem single_return_block (s : LowerState) (rv : AstExpr) (sp : Span)
    (e : IRExpr) (s1 : LowerState)
    (h : transform_expr rv (enter_block s) = .ok (e, s1)) :
    transform_block [.ret rv sp] s =
      .ok (.letE [] (some e) none, { s1 with blocks := s.blocks }) := by
  have hbl : s1.blocks = [] :: s.blocks := by
    rw [transform_expr_blocks rv (enter_block s) e s1 h]
    rfl
  simp [transform_block, transform_block_stmts, transform_stmt, h,
        Except.bind, exit_block, hbl]

theorem single_return_block_witness :
    transform_block [.ret (.varE "y" 5) 6] stY =
      .ok (.letE [] (some (IRExpr.var 0 "y" none none)) none, stY) :=
  single_return_block stY (.varE "y" 5) 6 (IRExpr.var 0 "y" none none)
    (enter_block stY)
    (by simp [transform_expr, enter_block, dictGet, stY])

/-- C9: at the failing input — `emit` with a level string other than
"warning", "error" or "bug" — the fallback branch assigns the plain
string "error" as the level instead of the ERROR enum value, so the
recorded diagnostic is not identical to the one recorded when passing
"error". -/
theorem emit_unknown_level_not_error_enum :
    TVMDiagnosticContext.emit [] "note" "msg" (some 0) =
      .ok [⟨Sum.inr "error", 0, "msg"⟩] ∧
    TVMDiagnosticContext.emit [] "error" "msg" (some 0) =
      .ok [⟨Sum.inl DiagnosticLevel.ERROR, 0, "msg"⟩] ∧
    (⟨Sum.inr "error", 0, "msg"⟩ : Diagnostic) ≠
      ⟨Sum.inl DiagnosticLevel.ERROR, 0, "msg"⟩ := by
  refine ⟨rfl, rfl, by decide⟩

/-- C10 counterexample: with the intrinsic name "compute" bound in the
local symbol table, a call to it still lowers to the intrinsic Compute
node over the lowered arguments — not to the bound variable — because
the intrinsic branch precedes the table lookup. -/
theorem bound_intrinsic_name_counterexample :
    transform_expr (.call (.fvar "compute")
        [.varE "compute" 0, .varE "compute" 1] 2) stComputeBound =
      .ok (.computeE (IRExpr.var 0 "compute" none none)
            (IRExpr.var 0 "compute" none none) none, stComputeBound) := by
  have h1 : transform_expr_list [.varE "compute" 0, .varE "compute" 1]
      stComputeBound =
      .ok ([IRExpr.var 0 "compute" none none,
            IRExpr.var 0 "compute" none none], stComputeBound) := by
    simp [transform_expr_list, transform_expr, dictGet, stComputeBound,
          Except.bind]
  rw [transform_expr.eq_1, h1]
  rfl

/-- C10 (amended): for every call expression whose callee name is not an
intrinsic and is currently bound in the local symbol table, the lowered
result is the bound variable itself — no call node is constructed and
the lowered arguments are discarded from the output — while an error
raised while lowering an argument propagates. -/
theorem call_bound_name_yields_variable
    (name : String) (args : List AstExpr) (sp : Span) (s s1 : LowerState)
    (ps : List IRExpr) (v : IRExpr) (err : LowerErr)
    (hb : name ≠ "broadcast_shape") (hc : name ≠ "compute") :
    (transform_expr_list args s = .ok (ps, s1) →
      dictGet s1.str_to_var name = some v →
      transform_expr (.call (.fvar name) args sp) s = .ok (v, s1)) ∧
    (transform_expr_list args s = .error err →
      transform_expr (.call (.fvar name) args sp) s = .error err) := by
  constructor
  · intro hargs hlocal
    simp [transform_expr, hargs, Except.bind, call_named, hb, hc, hlocal]
  · intro hargs
    simp [transform_expr, hargs, Except.bind]

theorem call_bound_name_yields_variable_witness :
    transform_expr (.call (.fvar "f") [] 0) stF =
      .ok (IRExpr.var 0 "f" none none, stF) ∧
    transform_expr (.call (.fvar "f") [.varE "zz" 1] 0) stF =
      .error (.keyError "zz") :=
  ⟨(call_bound_name_yields_variable "f" [] 0 stF stF []
      (IRExpr.var 0 "f" none none) (.keyError "zz")
      (by decide) (by decide)).1
      (by simp [transform_expr_list])
      (by simp [stF, dictGet]),
   (call_bound_name_yields_variable "f" [.varE "zz" 1] 0 stF stF []
      (IRExpr.var 0 "f" none none) (.keyError "zz")
      (by decide) (by decide)).2
      (by simp [transform_expr_list, transform_expr, dictGet, stF,
                Except.bind])⟩

end Relax
